import Mathlib

/-!
Shallow embedding of the vector-search result reconciliation engine of
`hsfs/core/vector_db_client.py` (class `VectorDbClient`): column namespace
mapping built in `init`, filter-tree compilation (`_get_query_filter`,
`_convert_filter`), result-key rewriting (`_rewrite_result_key`), schema
type coercion (`_convert_to_pandas_type`), adaptive over-fetch in
`find_neighbors`, lazy `serving_key_by_serving_index`, and
`filter_entry_by_join_index`.

Python dicts are modelled as insertion-ordered association lists
(`dinsert` updates in place when the key exists, appends otherwise);
Python falsy values are modelled on an explicit `RawValue` type;
Python exceptions are modelled with `Except` / `Option`.
-/

namespace Hsfs

/-! ### Python dict model: insertion-ordered association lists -/

section Dict

variable {κ : Type} {α : Type} [DecidableEq κ]

/-- Python dict assignment `m[k] = v`: update in place when the key exists
(dicts built from the empty dict have unique keys), append at the end
otherwise. -/
def dinsert : List (κ × α) → κ → α → List (κ × α)
  | [], k, v => [(k, v)]
  | p :: t, k, v => if p.1 = k then (k, v) :: t else p :: dinsert t k v

/-- Python `m.get(k)`: the value under `k`, when present. -/
def dget : List (κ × α) → κ → Option α
  | [], _ => none
  | p :: t, k => if p.1 = k then some p.2 else dget t k

/-- Python `list(m.keys())`. -/
def dkeys (m : List (κ × α)) : List κ := m.map (fun p => p.1)

@[simp] theorem dget_nil (k : κ) : dget ([] : List (κ × α)) k = none := rfl

@[simp] theorem dget_dinsert_self (m : List (κ × α)) (k : κ) (v : α) :
    dget (dinsert m k v) k = some v := by
  induction m with
  | nil => simp [dinsert, dget]
  | cons p t ih =>
    by_cases h : p.1 = k
    · simp [dinsert, dget, h]
    · simp [dinsert, dget, h, ih]

theorem dget_dinsert_ne (m : List (κ × α)) (k k' : κ) (v : α) (hne : k' ≠ k) :
    dget (dinsert m k v) k' = dget m k' := by
  induction m with
  | nil =>
    simp only [dinsert, dget]
    rw [if_neg (fun h : (k, v).1 = k' => hne h.symm)]
  | cons p t ih =>
    by_cases h : p.1 = k
    · simp only [dinsert, if_pos h, dget]
      rw [if_neg (fun hh : (k, v).1 = k' => hne hh.symm), if_neg (fun hh => hne (h ▸ hh).symm)]
    · simp only [dinsert, if_neg h, dget]
      by_cases h' : p.1 = k'
      · rw [if_pos h', if_pos h']
      · rw [if_neg h', if_neg h', ih]

theorem mem_dkeys_dinsert (m : List (κ × α)) (k k' : κ) (v : α) :
    k' ∈ dkeys (dinsert m k v) ↔ k' = k ∨ k' ∈ dkeys m := by
  induction m with
  | nil => simp [dinsert, dkeys, eq_comm]
  | cons p t ih =>
    by_cases h : p.1 = k
    · subst h
      simp [dinsert, dkeys]
    · simp only [dinsert, if_neg h, dkeys, List.map_cons, List.mem_cons]
      simp only [dkeys] at ih
      rw [ih]
      tauto

theorem dkeys_nodup_dinsert (m : List (κ × α)) (k : κ) (v : α)
    (hm : (dkeys m).Nodup) : (dkeys (dinsert m k v)).Nodup := by
  induction m with
  | nil => simp [dinsert, dkeys]
  | cons p t ih =>
    by_cases h : p.1 = k
    · subst h
      simpa [dinsert, dkeys] using hm
    · simp only [dkeys, List.map_cons, List.nodup_cons] at hm
      have := ih hm.2
      simp only [dinsert, if_neg h, dkeys, List.map_cons, List.nodup_cons]
      refine ⟨fun hmem => ?_, this⟩
      rcases (mem_dkeys_dinsert t k p.1 v).mp hmem with h1 | h2
      · exact h h1
      · exact hm.1 h2

theorem dget_isSome_iff_mem_dkeys (m : List (κ × α)) (k : κ) :
    (dget m k).isSome ↔ k ∈ dkeys m := by
  induction m with
  | nil => simp [dget, dkeys]
  | cons p t ih =>
    by_cases h : p.1 = k
    · subst h
      simp [dget, dkeys]
    · simp only [dget, if_neg h, dkeys, List.map_cons, List.mem_cons]
      simp only [dkeys] at ih
      rw [ih]
      constructor
      · exact Or.inr
      · rintro (h1 | h2)
        · first
          | exact absurd h1 h
          | exact absurd h1.symm h
        · exact h2

end Dict

/-! ### Raw result values and Python truthiness -/

/-- A raw value as it appears in an index result row or a caller entry:
integers (also epoch milliseconds), text, base64-decoded byte strings,
coerced calendar dates and timestamps, vectors, and Python `None`. -/
inductive RawValue where
  | null : RawValue
  | int (n : Int) : RawValue
  | str (s : String) : RawValue
  | bytes (bs : List Nat) : RawValue
  | date (y : Int) (mo d : Nat) : RawValue
  | timestamp (y : Int) (mo d h mi s : Nat) : RawValue
  | arr (vs : List Int) : RawValue
deriving DecidableEq, Repr

/-- Python truthiness on raw values: `None`, `0`, empty text, empty bytes
and empty lists are falsy. -/
def isFalsy : RawValue → Bool
  | .null => true
  | .int n => n = 0
  | .str s => s = ""
  | .bytes bs => bs = []
  | .arr vs => vs = []
  | .date _ _ _ => false
  | .timestamp _ _ _ _ _ _ => false

/-- Python `a or b`: `b` when `a` is falsy, else `a`. -/
def pyOr (a b : RawValue) : RawValue := if isFalsy a then b else a

/-- Python `d.get(k)` collapsed to a raw value: absent keys give `None`. -/
def pyGet (d : List (String × RawValue)) (k : String) : RawValue :=
  (dget d k).getD .null

/-! ### Calendar conversion (`datetime.utcfromtimestamp`) -/

/-- Days-since-epoch to a proleptic Gregorian civil date
(year, month, day); floor division throughout, as in Python. -/
def civilFromDays (z0 : Int) : Int × Nat × Nat :=
  let z := z0 + 719468
  let era := z.fdiv 146097
  let doe := (z - era * 146097).toNat
  let yoe := (doe - doe / 1460 + doe / 36524 - doe / 146096) / 365
  let y := (yoe : Int) + era * 400
  let doy := doe - (365 * yoe + yoe / 4 - yoe / 100)
  let mp := (5 * doy + 2) / 153
  let d := doy - (153 * mp + 2) / 5 + 1
  let m := if mp < 10 then mp + 3 else mp - 9
  (if m ≤ 2 then y + 1 else y, m, d)

/-- `datetime.utcfromtimestamp(ms // 1000).date()`:
epoch milliseconds to a calendar date. -/
def msToDate (ms : Int) : RawValue :=
  let secs := ms.fdiv 1000
  let c := civilFromDays (secs.fdiv 86400)
  .date c.1 c.2.1 c.2.2

/-- `datetime.utcfromtimestamp(ms // 1000)`: epoch milliseconds to a
point in time retaining the time of day. -/
def msToTimestamp (ms : Int) : RawValue :=
  let secs := ms.fdiv 1000
  let c := civilFromDays (secs.fdiv 86400)
  let sod := (secs.emod 86400).toNat
  .timestamp c.1 c.2.1 c.2.2 (sod / 3600) (sod % 3600 / 60) (sod % 60)

/-! ### Base64 decoding (`base64.b64decode`) -/

/-- The 6-bit value of a standard base64 alphabet character. -/
def b64Val (c : Char) : Option Nat :=
  if 'A' ≤ c ∧ c ≤ 'Z' then some (c.toNat - 65)
  else if 'a' ≤ c ∧ c ≤ 'z' then some (c.toNat - 97 + 26)
  else if '0' ≤ c ∧ c ≤ '9' then some (c.toNat - 48 + 52)
  else if c = '+' then some 62
  else if c = '/' then some 63
  else none

/-- Decode base64 quartets into bytes; `=` padding is only accepted at the
very end. `none` models `binascii.Error`. -/
def b64Groups : List Char → Option (List Nat)
  | [] => some []
  | c1 :: c2 :: c3 :: c4 :: rest => do
    let b1 ← b64Val c1
    let b2 ← b64Val c2
    if c3 = '=' ∧ c4 = '=' ∧ rest = [] then
      some [b1 * 4 + b2 / 16]
    else do
      let b3 ← b64Val c3
      if c4 = '=' ∧ rest = [] then
        some [b1 * 4 + b2 / 16, b2 % 16 * 16 + b3 / 4]
      else do
        let b4 ← b64Val c4
        let tail ← b64Groups rest
        some ((b1 * 4 + b2 / 16) :: (b2 % 16 * 16 + b3 / 4) :: (b3 % 4 * 64 + b4) :: tail)
  | _ => none

/-- `base64.b64decode(s)`: characters outside the alphabet are discarded
before decoding, as CPython does with `validate=False`. -/
def b64decode (s : String) : Option (List Nat) :=
  b64Groups (s.toList.filter (fun c => (b64Val c).isSome || c = '='))

/-! ### Static query shape: features, feature groups, joins -/

/-- `hsfs.feature.Feature`: name, declared type, owning feature group.
Modelled from the spec: `is_complex()` flags complex/structured declared
types; the class itself lives outside this file pair. -/
structure Feature where
  name : String
  ftype : String
  complexType : Bool
  feature_group_id : Nat
deriving DecidableEq, Repr

/-- `feature.is_complex()`. -/
def Feature.is_complex (f : Feature) : Bool := f.complexType

/-- An embedding index attached to a feature group: physical index name,
column prefix used for project indexes, and the names of its embedding
features. Modelled from the spec (`hsfs.embedding`): belongs to one
feature group; declares embedding features, an index name and a column
prefix. -/
structure EmbeddingIndex where
  index_name : String
  col_pfx : String
  embeddingNames : List String
deriving DecidableEq, Repr, Inhabited

/-- A feature group: stable id, features, primary key, optional embedding
index. Modelled from the spec (`hsfs.feature_group`): id, ordered
features, ordered primary key, zero or one embedding index. -/
structure FeatureGroup where
  id : Nat
  features : List Feature
  primary_key : List String
  embedding_index : Option EmbeddingIndex
deriving DecidableEq, Repr

/-- `fg[name]`: look the feature up by name. Modelled from the spec:
feature groups expose their features by name. -/
def FeatureGroup.getItem (fg : FeatureGroup) (nm : String) : Option Feature :=
  fg.features.find? (fun f => f.name = nm)

/-- An embedding feature as resolved in `init`: its name together with the
feature group it belongs to (in the source, the embedding feature object
carries `feature_group` and `embedding_index` back-references set when the
index is attached to the group). -/
structure EmbFeat where
  name : String
  fg : FeatureGroup
deriving DecidableEq, Repr

/-- `embedding_feature.embedding_index`. -/
def EmbFeat.embIdx (e : EmbFeat) : EmbeddingIndex :=
  e.fg.embedding_index.getD default

/-- A feature-group-scoped sub-query: `_left_feature_group` and
`_left_features`. Modelled from the spec (`hsfs.constructor.query`). -/
structure SubQuery where
  left_feature_group : FeatureGroup
  left_features : List Feature
deriving DecidableEq, Repr

/-- `hsfs.constructor.join.Join`: a sub-query plus an optional column
alias. Modelled from the spec: each join points at a sub-query and
carries an optional name prefix. -/
structure Join where
  query : SubQuery
  pfx : Option String
deriving DecidableEq, Repr

/-- The composed query: primary scan plus joins. Modelled from the spec
(`hsfs.constructor.query.Query`). -/
structure Query where
  left_feature_group : FeatureGroup
  left_features : List Feature
  joins : List Join
deriving DecidableEq, Repr

/-- `query.featuregroups`: the primary feature group followed by each
joined one. Modelled from the spec: the feature groups participating in
the query. -/
def Query.featuregroups (q : Query) : List FeatureGroup :=
  q.left_feature_group :: q.joins.map (fun j => j.query.left_feature_group)

/-- `[self._query] + [j.query for j in self._query.joins]`. -/
def Query.subqueries (q : Query) : List SubQuery :=
  ⟨q.left_feature_group, q.left_features⟩ :: q.joins.map (fun j => j.query)

/-- `[Join(self._query, None, None, None, None, "")] + self._query.joins`:
the synthetic join for the left feature group carries the empty prefix. -/
def Query.fgJoins (q : Query) : List (SubQuery × Option String) :=
  (⟨q.left_feature_group, q.left_features⟩, some "") ::
    q.joins.map (fun j => (j.query, j.pfx))

/-- `hsfs.serving_key.ServingKey`. Modelled from the spec: external
serving key name, feature-group-local feature name, join index. -/
structure ServingKey where
  required_serving_key : String
  feature_name : String
  join_index : Nat
deriving DecidableEq, Repr

/-! ### Errors -/

/-- The exceptions `VectorDbClient` raises or propagates:
`ValueError`, `FeatureStoreException`, `KeyError`, `AttributeError`,
`TypeError`/`binascii.Error`, and `VectorDatabaseException`. -/
structure VdbError where
  reason : String
  infoK : Option Nat
deriving DecidableEq, Repr

/-- `VectorDatabaseException.REQUESTED_K_TOO_LARGE`. -/
def REQUESTED_K_TOO_LARGE : String := "requested_k_too_large"

inductive PyErr where
  | valueErr (msg : String)
  | fsErr (msg : String)
  | keyErr (key : String)
  | attrErr
  | typeErr
  | vdbErr (e : VdbError)
deriving DecidableEq, Repr

/-! ### Client state and `init` -/

/-- The instance fields of `VectorDbClient` populated in `__init__` and
`init`. -/
structure ClientState where
  embedding_features : List (Feature × EmbFeat) := []
  fg_vdb_col_fg_col_map : List (Nat × List (String × Feature)) := []
  fg_vdb_col_td_col_map : List (Nat × List (String × String)) := []
  fg_col_vdb_col_map : List (Nat × List (String × String)) := []
  fg_embedding_map : List (Nat × EmbeddingIndex) := []
  td_embedding_feature_names : List String := []
  embedding_fg_by_join_index : List (Nat × FeatureGroup) := []
  fg_id_to_vdb_pks : List (Nat × List String) := []
  index_result_limit_k : List (String × Nat) := []
  serving_keys : Option (List ServingKey) := none
  serving_key_by_serving_index : List (Nat × List ServingKey) := []
deriving DecidableEq, Repr

/-- Set insertion for `self._td_embedding_feature_names.add`. -/
def sinsert (l : List String) (x : String) : List String :=
  if x ∈ l then l else l ++ [x]

/-- First loop of `init`: `self._embedding_features[fgf] = feat` for every
feature of an embedding-bearing group that matches an embedding feature
by name and owning group id. -/
def buildEmbeddingFeatures (q : Query) : List (Feature × EmbFeat) :=
  q.featuregroups.foldl
    (fun acc fg =>
      match fg.embedding_index with
      | none => acc
      | some ei =>
        ei.embeddingNames.foldl
          (fun acc featName =>
            fg.features.foldl
              (fun acc fgf =>
                if fgf.name = featName ∧ fgf.feature_group_id = fg.id then
                  dinsert acc fgf ⟨featName, fg⟩
                else acc)
              acc)
          acc)
    []

/-- The two per-group column maps of the second loop of `init`:
`vdb_col_fg_col_map` and `fg_col_vdb_col_map`, from the selected features
followed by the primary key columns (looked up on the feature group, a
missing key column raising `KeyError`). -/
def mkFgColMaps (q : SubQuery) (ei : EmbeddingIndex) :
    Except PyErr (List (String × Feature) × List (String × String)) := do
  let base := q.left_features.foldl
    (fun (p : List (String × Feature) × List (String × String)) f =>
      (dinsert p.1 (ei.col_pfx ++ f.name) f,
       dinsert p.2 f.name (ei.col_pfx ++ f.name)))
    ([], [])
  q.left_feature_group.primary_key.foldlM
    (fun (p : List (String × Feature) × List (String × String)) pk =>
      match q.left_feature_group.getItem pk with
      | some ft =>
          .ok (dinsert p.1 (ei.col_pfx ++ pk) ft,
               dinsert p.2 pk (ei.col_pfx ++ pk))
      | none => .error (.keyErr pk))
    base

/-- Second loop of `init`: per embedding-bearing sub-query, populate
`_fg_vdb_col_fg_col_map`, `_fg_id_to_vdb_pks`, `_fg_col_vdb_col_map` and
`_fg_embedding_map`. -/
def initLoop1 : List SubQuery → ClientState → Except PyErr ClientState
  | [], st => .ok st
  | q :: rest, st =>
    match q.left_feature_group.embedding_index with
    | none => initLoop1 rest st
    | some ei =>
      match mkFgColMaps q ei with
      | .error e => .error e
      | .ok maps =>
        let fg := q.left_feature_group
        initLoop1 rest { st with
          fg_vdb_col_fg_col_map := dinsert st.fg_vdb_col_fg_col_map fg.id maps.1,
          fg_id_to_vdb_pks := dinsert st.fg_id_to_vdb_pks fg.id
            (fg.primary_key.map (fun pk => (dget maps.2 pk).getD "")),
          fg_col_vdb_col_map := dinsert st.fg_col_vdb_col_map fg.id maps.2,
          fg_embedding_map := dinsert st.fg_embedding_map fg.id ei }

/-- `vdb_col_td_col_map` for one join: every feature of the joined group,
physical name to join-alias-prefixed final name (`join.prefix` may be
`None`). -/
def mkVdbTdMap (fg : FeatureGroup) (ei : EmbeddingIndex) (jpfx : String) :
    List (String × String) :=
  fg.features.foldl
    (fun m feat => dinsert m (ei.col_pfx ++ feat.name) (jpfx ++ feat.name))
    []

/-- Third loop of `init` (over the synthetic left join followed by the
declared joins, with the enumeration index): rejects a second occurrence
of the same embedding-bearing feature group, records the group under its
join index, accumulates the prefixed embedding feature names and builds
`_fg_vdb_col_td_col_map`. -/
def initLoop2 (i : Nat) (joins : List (SubQuery × Option String))
    (st : ClientState) : Except PyErr ClientState :=
  match joins with
  | [] => .ok st
  | (q, jpfx) :: rest =>
    let join_fg := q.left_feature_group
    match join_fg.embedding_index with
    | none => initLoop2 (i + 1) rest st
    | some ei =>
      if (dget st.fg_vdb_col_td_col_map join_fg.id).isSome then
        .error (.fsErr "Do not support join of same fg multiple times.")
      else
        initLoop2 (i + 1) rest
          { st with
            embedding_fg_by_join_index :=
              dinsert st.embedding_fg_by_join_index i join_fg,
            td_embedding_feature_names :=
              ei.embeddingNames.foldl
                (fun s nm => sinsert s (jpfx.getD "" ++ nm))
                st.td_embedding_feature_names,
            fg_vdb_col_td_col_map :=
              dinsert st.fg_vdb_col_td_col_map join_fg.id
                (mkVdbTdMap join_fg ei (jpfx.getD "")) }

/-- `VectorDbClient.__init__` followed by `init`. -/
def init (q : Query) (serving_keys : Option (List ServingKey)) :
    Except PyErr ClientState := do
  let st0 : ClientState :=
    { embedding_features := buildEmbeddingFeatures q,
      serving_keys := serving_keys }
  let st1 ← initLoop1 q.subqueries st0
  initLoop2 0 q.fgJoins st1

/-! ### Filter expression model and its compilation -/

/-- `hsfs.constructor.filter.Filter` conditions. Modelled from the spec:
EQ, NE, IN, LK (like), GT, GE, LT, LE. -/
inductive Condition where
  | EQ | NE | IN | LK | GT | GE | LT | LE
deriving DecidableEq, Repr

/-- A comparison leaf: feature, condition, value (the value is kept as its
serialized text). Modelled from the spec (`hsfs.constructor.filter`). -/
structure SFilter where
  feature : Feature
  condition : Condition
  value : String
deriving DecidableEq, Repr

/-- `hsfs.constructor.filter.Logic` types. Modelled from the spec:
SINGLE, AND, OR. -/
inductive LogicType where
  | SINGLE | AND | OR
deriving DecidableEq, Repr

/-- A filter tree: Python `None` (the absent filter, and what
`get_left_filter_or_logic` / `get_right_filter_or_logic` return for an
absent child), a `Filter` leaf, or a `Logic` composite. Modelled from the
spec (`hsfs.constructor.filter`). -/
inductive FilterOrLogic where
  | noneNode : FilterOrLogic
  | filt (f : SFilter) : FilterOrLogic
  | logic (t : LogicType) (l r : FilterOrLogic) : FilterOrLogic
deriving DecidableEq, Repr

/-- The native search clauses produced by `_get_query_filter`,
`_convert_filter`, `find_neighbors` and `read`. -/
inductive EsClause where
  | term (field : String) (v : String)
  | boolMustNot (cs : List EsClause)
  | termsIn (field : String) (v : String)
  | wildcard (field : String) (pat : String)
  | range (field : String) (op : String) (v : String)
  | boolMust (cs : List EsClause)
  | boolShould (cs : List EsClause) (minimumShouldMatch : Nat)
  | knn (field : String) (vector : List Int) (k : Nat)
  | existsField (field : String)
  | matchKV (field : String) (v : RawValue)
deriving Repr

/-- `VectorDbClient._filter_map`. -/
def filter_map (c : Condition) : Option String :=
  match c with
  | .GT => some "gt"
  | .GE => some "gte"
  | .LT => some "lt"
  | .LE => some "lte"
  | _ => none

/-- `VectorDbClient._convert_filter`: one leaf to one native clause, the
column name carrying `col_prefix` when that is truthy. -/
def convert_filter (f : SFilter) (cp : Option String) : EsClause :=
  let feature_name :=
    match cp with
    | some p => if p ≠ "" then p ++ f.feature.name else f.feature.name
    | none => f.feature.name
  match f.condition with
  | .EQ => .term feature_name f.value
  | .NE => .boolMustNot [.term feature_name f.value]
  | .IN => .termsIn feature_name f.value
  | .LK => .wildcard feature_name ("*" ++ f.value ++ "*")
  | c => .range feature_name ((filter_map c).getD "") f.value

/-- `VectorDbClient._get_query_filter`: recursive compilation of an
optional filter tree to a list of native clauses. For `SINGLE`, the left
child is compiled without a column prefix and, when that compilation is
empty (Python `or` on lists), the right child is compiled with the
prefix. -/
def get_query_filter (f : FilterOrLogic) (cp : Option String) :
    List EsClause :=
  match f with
  | .noneNode => []
  | .filt ft => [convert_filter ft cp]
  | .logic t l r =>
    match t with
    | .SINGLE =>
      let a := get_query_filter l none
      if a.isEmpty then get_query_filter r cp else a
    | .AND =>
      [.boolMust (get_query_filter l cp ++ get_query_filter r cp)]
    | .OR =>
      [.boolShould (get_query_filter l cp ++ get_query_filter r cp) 1]

/-- `VectorDbClient._check_filter`: every leaf feature must belong to the
target feature group (right child checked before left). -/
def check_filter (f : FilterOrLogic) (fg : FeatureGroup) :
    Except PyErr Unit :=
  match f with
  | .noneNode => .ok ()
  | .filt ft =>
    if ft.feature.feature_group_id ≠ fg.id then
      .error (.fsErr "filter feature should be from the feature group of the query")
    else .ok ()
  | .logic _ l r => do
    check_filter r fg
    check_filter l fg

/-! ### Result rewriting and type coercion -/

/-- The loop of `_rewrite_result_key` over the items of the raw row,
accumulating `new_map`. -/
def rewriteLoop (key_map : List (String × String)) :
    List (String × RawValue) → List (String × RawValue) →
    Except PyErr (List (String × RawValue))
  | [], new_map => .ok new_map
  | kv :: rest, new_map =>
    match dget key_map kv.1 with
    | none =>
      .error (.fsErr ("Feature " ++ kv.1 ++
        " from embedding feature group is not found in the query"))
    | some new_key => rewriteLoop key_map rest (dinsert new_map new_key kv.2)

/-- `VectorDbClient._rewrite_result_key`: rename every physical column of
a raw row through `key_map`; an unmapped column raises
`FeatureStoreException`. -/
def rewrite_result_key (result_map : List (String × RawValue))
    (key_map : List (String × String)) :
    Except PyErr (List (String × RawValue)) :=
  rewriteLoop key_map result_map []

/-- Python `str.lower()` on ASCII type names. -/
def strToLower (s : String) : String := ⟨s.data.map Char.toLower⟩

/-- One step of `VectorDbClient._convert_to_pandas_type`: coerce the raw
value under one schema feature (`none` models the `TypeError` /
`binascii.Error` a badly shaped value raises). -/
def convertFeature (embKeys : List Feature)
    (result : List (String × RawValue)) (feature : Feature) :
    Option (List (String × RawValue)) :=
  let feature_name := feature.name
  let feature_type := strToLower feature.ftype
  let feature_value := pyGet result feature_name
  if isFalsy feature_value then some result
  else if feature_type = "date" then
    match feature_value with
    | .int v => some (dinsert result feature_name (msToDate v))
    | _ => none
  else if feature_type = "timestamp" then
    match feature_value with
    | .int v => some (dinsert result feature_name (msToTimestamp v))
    | _ => none
  else if feature_type = "binary" ∨
      (feature.is_complex ∧ feature ∉ embKeys) then
    match feature_value with
    | .str s => (b64decode s).map (fun bs => dinsert result feature_name (.bytes bs))
    | _ => none
  else some result

/-- `VectorDbClient._convert_to_pandas_type`: fold the per-feature
coercion over the schema (the embedding-feature check is against the keys
of `self._embedding_features`). -/
def convert_to_pandas_type (embKeys : List Feature) (schema : List Feature)
    (result : List (String × RawValue)) : Option (List (String × RawValue)) :=
  schema.foldlM (fun r f => convertFeature embKeys r f) result

/-! ### Search requests, responses and `find_neighbors` -/

/-- One hit of a search response: `_score` and `_source`. -/
structure Hit where
  score : ℚ
  source : List (String × RawValue)

/-- A search response: `hits.hits`. -/
structure SearchResponse where
  hits : List Hit

/-- The `must` part of a request body: `find_neighbors` and the key-based
`read` build a list of clauses, the pk-based `read` a single clause. -/
inductive MustBody where
  | list (cs : List EsClause)
  | single (c : EsClause)

/-- A request body: optional `size`, the boolean `must` clauses, and the
`_source` projection. -/
structure EsQuery where
  size : Option Nat
  must : MustBody
  source : List String

/-- The in-place mutation
`query["query"]["bool"]["must"][0]["knn"][col_name]["k"] = newK`. -/
def setKnnK (q : EsQuery) (newK : Nat) : EsQuery :=
  { q with must :=
      match q.must with
      | .list (.knn f v _ :: rest) => .list (.knn f v newK :: rest)
      | other => other }

/-- The `k` of the leading knn clause of a request body. -/
def knnKOf (q : EsQuery) : Option Nat :=
  match q.must with
  | .list (.knn _ _ k :: _) => some k
  | _ => none

/-- The request body `find_neighbors` builds: `size = k`, a knn clause and
an existence clause on the physical embedding column followed by the
compiled filter, and the physical columns of the mapper as `_source`. -/
def mkFnQuery (col_name : String) (embedding : List Int) (k : Nat)
    (filt : FilterOrLogic) (cp : String) (srcCols : List String) :
    EsQuery :=
  { size := some k,
    must := .list ([.knn col_name embedding k, .existsField col_name] ++
      get_query_filter filt (some cp)),
    source := srcCols }

/-- The embedding-feature resolution at the top of `find_neighbors`: an
explicit feature must be a known embedding feature; otherwise the query
must have exactly one embedding feature overall. -/
def resolveEmbeddingFeature (st : ClientState) (feature : Option Feature) :
    Except PyErr EmbFeat :=
  match feature with
  | none =>
    match st.embedding_features with
    | [] => .error (.valueErr "embedding col is not defined.")
    | [p] => .ok p.2
    | _ => .error (.valueErr "More than 1 embedding columns but col is not defined")
  | some f =>
    match dget st.embedding_features f with
    | some ef => .ok ef
    | none => .error (.valueErr ("feature: " ++ f.name ++ " is not an embedding feature."))

/-- `if not index_name: index_name = embedding_feature.embedding_index.index_name`. -/
def resolveIndexName (indexName : Option String) (ef : EmbFeat) : String :=
  match indexName with
  | some s => if s = "" then (EmbFeat.embIdx ef).index_name else s
  | none => (EmbFeat.embIdx ef).index_name

/-- The per-hit processing of `find_neighbors`: distance `1/score - 1`,
key rewriting through the physical-to-final map, then schema coercion. -/
def processHits (embKeys : List Feature) (schema : List Feature)
    (tdm : List (String × String)) (hits : List Hit) :
    Except PyErr (List (ℚ × List (String × RawValue))) :=
  hits.mapM (fun item => do
    let renamed ← rewrite_result_key item.source tdm
    match convert_to_pandas_type embKeys schema renamed with
    | some row => .ok (1 / item.score - 1, row)
    | none => .error .typeErr)

/-- The tail of `find_neighbors`: look the physical-to-final map up under
the feature group id (`KeyError` when absent) and process the hits of the
final response. -/
def fnProcess (st : ClientState) (schema : List Feature) (ef : EmbFeat)
    (hits : List Hit) : Except PyErr (List (ℚ × List (String × RawValue))) :=
  match dget st.fg_vdb_col_td_col_map ef.fg.id with
  | none => .error (.keyErr "fg_vdb_col_td_col_map")
  | some tdm =>
    processHits (st.embedding_features.map (fun p => p.1)) schema tdm hits

/-- What a `find_neighbors` call leaves behind: the (possibly updated)
`_index_result_limit_k` cache, the requests issued in order, and the
returned rows or the raised exception. The cache and trace model the
mutable field and the network calls, which survive a raise. -/
structure FnOutcome where
  cache : List (String × Nat)
  trace : List (String × EsQuery)
  result : Except PyErr (List (ℚ × List (String × RawValue)))

/-- `VectorDbClient.find_neighbors`, with the index client modelled as a
deterministic oracle from (index name, request body) to a response or a
`VectorDatabaseException`. -/
def find_neighbors (search : String → EsQuery → Except VdbError SearchResponse)
    (st : ClientState) (embedding : List Int) (schema : List Feature)
    (feature : Option Feature) (indexName : Option String) (k : Nat)
    (filt : FilterOrLogic) : FnOutcome :=
  match resolveEmbeddingFeature st feature with
  | .error e => ⟨st.index_result_limit_k, [], .error e⟩
  | .ok ef =>
    match check_filter filt ef.fg with
    | .error e => ⟨st.index_result_limit_k, [], .error e⟩
    | .ok _ =>
      let cp := (EmbFeat.embIdx ef).col_pfx
      let col_name := cp ++ ef.name
      match dget st.fg_vdb_col_fg_col_map ef.fg.id with
      | none => ⟨st.index_result_limit_k, [], .error .attrErr⟩
      | some srcMap =>
        let body := mkFnQuery col_name embedding k filt cp (dkeys srcMap)
        let idx := resolveIndexName indexName ef
        match search idx body with
        | .error e => ⟨st.index_result_limit_k, [(idx, body)], .error (.vdbErr e)⟩
        | .ok r1 =>
          if cp ≠ "" ∧ r1.hits.length ≠ k then
            let probe :
                List (String × Nat) × List (String × EsQuery) × Option PyErr :=
              if ((dget st.index_result_limit_k idx).getD 0) ≠ 0 then
                (st.index_result_limit_k, [], none)
              else
                let pbody := setKnnK body (2 ^ 31 - 1)
                match search idx pbody with
                | .ok _ => (st.index_result_limit_k, [(idx, pbody)], none)
                | .error e =>
                  if e.reason = REQUESTED_K_TOO_LARGE ∧ (e.infoK.getD 0) ≠ 0 then
                    (dinsert st.index_result_limit_k idx (e.infoK.getD 0),
                     [(idx, pbody)], none)
                  else
                    (st.index_result_limit_k, [(idx, pbody)], some (.vdbErr e))
            match probe with
            | (cache2, ptrace, some err) =>
              ⟨cache2, (idx, body) :: ptrace, .error err⟩
            | (cache2, ptrace, none) =>
              let newK := min ((dget cache2 idx).getD k) (3 * k)
              let rbody := setKnnK body newK
              match search idx rbody with
              | .error e =>
                ⟨cache2, (idx, body) :: ptrace ++ [(idx, rbody)], .error (.vdbErr e)⟩
              | .ok r2 =>
                ⟨cache2, (idx, body) :: ptrace ++ [(idx, rbody)],
                 fnProcess st schema ef r2.hits⟩
          else
            ⟨st.index_result_limit_k, [(idx, body)],
             fnProcess st schema ef r1.hits⟩

/-! ### `read`, `_get_vector_db_index_name` -/

/-- `VectorDbClient._get_vector_db_index_name`. -/
def get_vector_db_index_name (st : ClientState) (fg_id : Nat) :
    Except PyErr String :=
  match dget st.fg_embedding_map fg_id with
  | none => .error (.valueErr "No embedding fg available.")
  | some e => .ok e.index_name

/-- `VectorDbClient.read`: key-based point read (an AND of match clauses
from the rewritten keys) or a primary-key existence read limited to `n`
rows; rows are rewritten and coerced like search hits. -/
def read (search : String → EsQuery → Except VdbError SearchResponse)
    (st : ClientState) (fg_id : Nat) (schema : List Feature)
    (keys : Option (List (String × RawValue))) (pk : Option String)
    (indexName : Option String) (n : Nat) :
    Except PyErr (List (List (String × RawValue))) := do
  match dget st.fg_vdb_col_fg_col_map fg_id with
  | none => .error (.fsErr "Provided fg does not have embedding.")
  | some srcMap => do
    let idx ←
      match indexName with
      | none => get_vector_db_index_name st fg_id
      | some s =>
        if s = "" then get_vector_db_index_name st fg_id else .ok s
    let keysTruthy := match keys with | some l => !l.isEmpty | none => false
    let query : EsQuery ←
      if keysTruthy then do
        let km ←
          match dget st.fg_col_vdb_col_map fg_id with
          | some m => Except.ok m
          | none => Except.error (.keyErr "fg_col_vdb_col_map")
        let rewritten ← rewrite_result_key (keys.getD []) km
        Except.ok
          { size := none,
            must := .list (rewritten.map (fun kv => .matchKV kv.1 kv.2)),
            source := dkeys srcMap }
      else
        match pk with
        | none => Except.error (.fsErr "No pk provided.")
        | some p =>
          if p = "" then Except.error (.fsErr "No pk provided.")
          else
            Except.ok
              { size := some n, must := .single (.existsField p),
                source := dkeys srcMap }
    match search idx query with
    | .error e => .error (.vdbErr e)
    | .ok r => do
      let tdm ←
        match dget st.fg_vdb_col_td_col_map fg_id with
        | some m => Except.ok m
        | none => Except.error (.keyErr "fg_vdb_col_td_col_map")
      r.hits.mapM (fun item => do
        let renamed ← rewrite_result_key item.source tdm
        match convert_to_pandas_type (st.embedding_features.map (fun p => p.1))
            schema renamed with
        | some row => Except.ok row
        | none => Except.error PyErr.typeErr)

/-! ### Lazy serving-key grouping and join-index key resolution -/

/-- The `serving_key_by_serving_index` property: returns the grouped map
and the state after the access (the grouping by join index is computed
and stored on first non-empty access). -/
def serving_key_by_serving_index (st : ClientState) :
    List (Nat × List ServingKey) × ClientState :=
  if st.serving_key_by_serving_index.length > 0 then
    (st.serving_key_by_serving_index, st)
  else
    match st.serving_keys with
    | some sks =>
      let m := sks.foldl
        (fun m sk =>
          dinsert m sk.join_index ((dget m sk.join_index).getD [] ++ [sk]))
        st.serving_key_by_serving_index
      (m, { st with serving_key_by_serving_index := m })
    | none => ([], { st with serving_key_by_serving_index := [] })

/-- The value `filter_entry_by_join_index` resolves for one serving key:
Python `entry.get(required) or entry.get(feature_name)`. -/
def resolveServingKey (entry : List (String × RawValue)) (sk : ServingKey) :
    RawValue :=
  pyOr (pyGet entry sk.required_serving_key) (pyGet entry sk.feature_name)

/-- The loop of `filter_entry_by_join_index`: resolve each serving key
preferring the external serving-key name with Python-`or` fallback to the
feature name, stopping at the first key that resolves to `None`. -/
def filterEntryLoop (entry : List (String × RawValue)) :
    List ServingKey → List (String × RawValue) → Bool × List (String × RawValue)
  | [], fg_entry => (true, fg_entry)
  | sk :: rest, fg_entry =>
    let v := resolveServingKey entry sk
    let fg_entry := dinsert fg_entry sk.feature_name v
    if v = .null then (false, fg_entry)
    else filterEntryLoop entry rest fg_entry

/-- `VectorDbClient.filter_entry_by_join_index`; `none` models the
`KeyError` on an unknown join index, and the accessed (possibly updated)
state is returned alongside. -/
def filter_entry_by_join_index (st : ClientState)
    (entry : List (String × RawValue)) (join_index : Nat) :
    Option ((Bool × List (String × RawValue)) × ClientState) :=
  let p := serving_key_by_serving_index st
  match dget p.1 join_index with
  | none => none
  | some sks => some (filterEntryLoop entry sks [], p.2)

/-- The physical column name as the spec words it: the namespace column
prefix (empty when absent) prepended to the leaf feature name. -/
def physName (cp : Option String) (nm : String) : String := cp.getD "" ++ nm

/-! ### Concrete fixtures -/

def featEmb : Feature := ⟨"emb", "array<double>", true, 1⟩

def featAge : Feature := ⟨"age", "bigint", false, 1⟩

def featId : Feature := ⟨"id", "bigint", false, 1⟩

def ei1 : EmbeddingIndex := ⟨"idx1", "p_", ["emb"]⟩

def fg1 : FeatureGroup := ⟨1, [featId, featAge, featEmb], ["id"], some ei1⟩

/-- A single-source query over the embedding-bearing `fg1`, the primary
key not selected as a feature. -/
def q1 : Query := ⟨fg1, [featEmb, featAge], []⟩

def stQ1 : ClientState := (init q1 none).toOption.getD {}

def featEmb2 : Feature := ⟨"emb2", "array<double>", true, 2⟩

def featId2 : Feature := ⟨"id2", "bigint", false, 2⟩

def fg2 : FeatureGroup := ⟨2, [featId2, featEmb2], ["id2"], some ⟨"idx2", "e_", ["emb2"]⟩⟩

/-- A query joining a second embedding-bearing feature group under the
alias `r_`. -/
def qJoin : Query := ⟨fg1, [featEmb, featAge], [⟨⟨fg2, [featEmb2]⟩, some "r_"⟩]⟩

def stQJoin : ClientState := (init qJoin none).toOption.getD {}

/-- A query joining the same embedding-bearing feature group twice. -/
def qDup : Query := ⟨fg1, [featEmb], [⟨⟨fg1, [featAge]⟩, some "r_"⟩]⟩

/-- One raw hit from the project index `idx1`. -/
def hitQ1 : Hit :=
  ⟨(1 : ℚ) / 2, [("p_id", .int 7), ("p_age", .int 30), ("p_emb", .arr [1, 2])]⟩

/-- A deterministic index oracle for the adaptive over-fetch scenario:
a request for `k = 10` returns only 4 hits, the probe for `k = 2^31 - 1`
fails reporting a maximum of 50, and the corrected request for
`k = min 50 30 = 30` returns 5 hits. -/
def probeOracle : String → EsQuery → Except VdbError SearchResponse :=
  fun _ q =>
    match knnKOf q with
    | some 10 => .ok ⟨[hitQ1, hitQ1, hitQ1, hitQ1]⟩
    | some 2147483647 => .error ⟨REQUESTED_K_TOO_LARGE, some 50⟩
    | some 30 => .ok ⟨[hitQ1, hitQ1, hitQ1, hitQ1, hitQ1]⟩
    | _ => .ok ⟨[]⟩

/-! ### Helper lemmas -/

theorem dinsert_ne_nil {κ α : Type} [DecidableEq κ]
    (m : List (κ × α)) (k : κ) (v : α) : dinsert m k v ≠ [] := by
  cases m with
  | nil => simp [dinsert]
  | cons p t => by_cases h : p.1 = k <;> simp [dinsert, h]

theorem dinsert_eq_append_of_not_mem {κ α : Type} [DecidableEq κ]
    (m : List (κ × α)) (k : κ) (v : α) (h : k ∉ dkeys m) :
    dinsert m k v = m ++ [(k, v)] := by
  induction m with
  | nil => simp [dinsert]
  | cons p t ih =>
    simp only [dkeys, List.map_cons, List.mem_cons] at h
    push_neg at h
    simp only [dinsert, if_neg (fun hh : p.1 = k => h.1 hh.symm), List.cons_append]
    rw [ih (by simpa [dkeys] using h.2)]

theorem string_append_left_cancel {s a b : String} (h : s ++ a = s ++ b) :
    a = b := by
  have := congrArg String.data h
  simp only [String.data_append] at this
  exact String.ext ((List.append_cancel_left this))

/-! ### C7: idempotent serving-key grouping -/

theorem skGroupFold_ne_nil (sks : List ServingKey)
    (m : List (Nat × List ServingKey)) (hm : m ≠ []) :
    sks.foldl
      (fun m sk =>
        dinsert m sk.join_index ((dget m sk.join_index).getD [] ++ [sk])) m ≠ [] := by
  induction sks generalizing m with
  | nil => exact hm
  | cons sk t ih =>
    exact ih _ (dinsert_ne_nil _ _ _)

/-- C7: the `serving_key_by_serving_index` property returns the same
mapping content on a first and an immediately following second access:
the grouping by join index is computed on first access (the empty mapping
when no serving keys were supplied) and cached, and the second access
returns the identical grouping. -/
theorem C7_serving_key_grouping_idempotent (st : ClientState) :
    (serving_key_by_serving_index (serving_key_by_serving_index st).2).1 =
      (serving_key_by_serving_index st).1 := by
  unfold serving_key_by_serving_index
  by_cases h : st.serving_key_by_serving_index.length > 0
  · simp [h]
  · have hnil : st.serving_key_by_serving_index = [] :=
      List.eq_nil_of_length_eq_zero (by omega)
    cases hsk : st.serving_keys with
    | none => simp [h, hsk]
    | some sks =>
      simp only [h, if_neg, if_false, hsk]
      cases hs : sks with
      | nil => simp [hnil]
      | cons sk t =>
        have hne :
            (sk :: t).foldl
              (fun m sk =>
                dinsert m sk.join_index ((dget m sk.join_index).getD [] ++ [sk]))
              st.serving_key_by_serving_index ≠ [] := by
          simp only [List.foldl_cons]
          exact skGroupFold_ne_nil t _ (dinsert_ne_nil _ _ _)
        have hlen : 0 <
            ((sk :: t).foldl
              (fun m sk =>
                dinsert m sk.join_index ((dget m sk.join_index).getD [] ++ [sk]))
              st.serving_key_by_serving_index).length :=
          List.length_pos.mpr hne
        simp only [List.foldl_cons] at hlen
        simp [hlen]

/-! ### C8: falsy raw values pass through uncoerced -/

/-- C8: the null pass-through check of `_convert_to_pandas_type` is a
Python truthiness check, so every falsy raw value — in particular `0` for
a date- or timestamp-typed feature and the empty string for a
binary-typed feature — is left unchanged; only truthy values are ever
converted. -/
theorem C8_falsy_values_pass_through (embKeys : List Feature)
    (row : List (String × RawValue)) (f : Feature)
    (h : isFalsy (pyGet row f.name) = true) :
    convertFeature embKeys row f = some row := by
  unfold convertFeature
  simp [h]

/-! ### C5: key rewriting is total on mapped rows and loud on unmapped keys -/

theorem rewriteLoop_ok (km : List (String × String))
    (row : List (String × RawValue)) (acc : List (String × RawValue))
    (hall : ∀ kv ∈ row, (dget km kv.1).isSome)
    (hnodup : (dkeys acc ++ row.map (fun kv => (dget km kv.1).getD "")).Nodup) :
    rewriteLoop km row acc =
      .ok (acc ++ row.map (fun kv => ((dget km kv.1).getD "", kv.2))) := by
  induction row generalizing acc with
  | nil => simp [rewriteLoop]
  | cons kv rest ih =>
    obtain ⟨nk, hnk⟩ := Option.isSome_iff_exists.mp (hall kv (List.mem_cons_self kv rest))
    simp only [rewriteLoop, hnk]
    have hmem : nk ∉ dkeys acc := by
      intro hmem
      simp only [List.map_cons, hnk, Option.getD_some] at hnodup
      exact (List.nodup_append.mp hnodup).2.2 hmem (List.mem_cons_self nk _)
    rw [dinsert_eq_append_of_not_mem acc nk kv.2 hmem]
    rw [ih (acc ++ [(nk, kv.2)]) (fun x hx => hall x (List.mem_cons_of_mem kv hx)) ?hn]
    · simp [hnk]
    · simp only [List.map_cons, hnk, Option.getD_some] at hnodup
      simpa [dkeys, List.append_assoc] using hnodup

theorem rewriteLoop_err (km : List (String × String))
    (pre : List (String × RawValue)) (kv : String × RawValue)
    (post : List (String × RawValue)) (acc : List (String × RawValue))
    (hpre : ∀ p ∈ pre, (dget km p.1).isSome)
    (hkv : dget km kv.1 = none) :
    rewriteLoop km (pre ++ kv :: post) acc =
      .error (.fsErr ("Feature " ++ kv.1 ++
        " from embedding feature group is not found in the query")) := by
  induction pre generalizing acc with
  | nil => simp [rewriteLoop, hkv]
  | cons p t ih =>
    obtain ⟨nk, hnk⟩ := Option.isSome_iff_exists.mp (hpre p (List.mem_cons_self p t))
    simp only [List.cons_append, rewriteLoop, hnk]
    exact ih _ (fun x hx => hpre x (List.mem_cons_of_mem p hx))

/-- C5: processing a raw result row through `_rewrite_result_key`, a
physical column key absent from the physical-to-final map raises the
"not found in the query" `FeatureStoreException` (at the first such key),
and otherwise every key is renamed to its mapped final name with every
value preserved in place — no column is silently dropped. -/
theorem C5_rewrite_renames_all_or_fails (row : List (String × RawValue))
    (km : List (String × String)) :
    ((∀ kv ∈ row, (dget km kv.1).isSome) →
      (row.map (fun kv => (dget km kv.1).getD "")).Nodup →
      rewrite_result_key row km =
        .ok (row.map (fun kv => ((dget km kv.1).getD "", kv.2)))) ∧
    (∀ (pre : List (String × RawValue)) (kv : String × RawValue)
        (post : List (String × RawValue)),
      row = pre ++ kv :: post →
      (∀ p ∈ pre, (dget km p.1).isSome) →
      dget km kv.1 = none →
      rewrite_result_key row km =
        .error (.fsErr ("Feature " ++ kv.1 ++
          " from embedding feature group is not found in the query"))) := by
  constructor
  · intro hall hnodup
    unfold rewrite_result_key
    rw [rewriteLoop_ok km row [] hall (by simpa [dkeys] using hnodup)]
    simp
  · intro pre kv post hrow hpre hkv
    unfold rewrite_result_key
    rw [hrow]
    exact rewriteLoop_err km pre kv post [] hpre hkv

theorem C5_rewrite_renames_all_or_fails_witness :
    rewrite_result_key [("emb_age", RawValue.int 30)] [("emb_age", "age")] =
      .ok [("age", RawValue.int 30)] ∧
    rewrite_result_key [("bogus", RawValue.int 1)] [("emb_age", "age")] =
      .error (.fsErr
        "Feature bogus from embedding feature group is not found in the query") := by
  constructor
  · exact ((C5_rewrite_renames_all_or_fails [("emb_age", RawValue.int 30)]
      [("emb_age", "age")]).1 (by decide) (by decide)).trans (by rfl)
  · exact ((C5_rewrite_renames_all_or_fails [("bogus", RawValue.int 1)]
      [("emb_age", "age")]).2 [] ("bogus", RawValue.int 1) [] rfl
      (by decide) (by decide)).trans (by rfl)

/-! ### C2 and C9: adaptive over-fetch -/

/-- A project-indexed `find_neighbors` call whose first response has a
hit count different from `k`, with a non-zero ceiling already cached for
the index name: no probe is issued; the search is re-issued once with the
knn `k` replaced by `min m (3 * k)` and that response is processed. -/
theorem find_neighbors_cached_retry
    (search : String → EsQuery → Except VdbError SearchResponse)
    (st : ClientState) (embedding : List Int) (schema : List Feature)
    (feature : Option Feature) (indexName : Option String) (k : Nat)
    (filt : FilterOrLogic) (ef : EmbFeat)
    (srcMap : List (String × Feature)) (r1 : SearchResponse) (m : Nat)
    (hef : resolveEmbeddingFeature st feature = .ok ef)
    (hchk : check_filter filt ef.fg = .ok ())
    (hsrc : dget st.fg_vdb_col_fg_col_map ef.fg.id = some srcMap)
    (hr1 : search (resolveIndexName indexName ef)
      (mkFnQuery ((EmbFeat.embIdx ef).col_pfx ++ ef.name) embedding k filt
        (EmbFeat.embIdx ef).col_pfx (dkeys srcMap)) = .ok r1)
    (hcp : (EmbFeat.embIdx ef).col_pfx ≠ "")
    (hlen : r1.hits.length ≠ k)
    (hcache : dget st.index_result_limit_k (resolveIndexName indexName ef) =
      some m)
    (hm : m ≠ 0) :
    find_neighbors search st embedding schema feature indexName k filt =
      ⟨st.index_result_limit_k,
       [(resolveIndexName indexName ef,
         mkFnQuery ((EmbFeat.embIdx ef).col_pfx ++ ef.name) embedding k filt
           (EmbFeat.embIdx ef).col_pfx (dkeys srcMap)),
        (resolveIndexName indexName ef,
         setKnnK (mkFnQuery ((EmbFeat.embIdx ef).col_pfx ++ ef.name) embedding
           k filt (EmbFeat.embIdx ef).col_pfx (dkeys srcMap)) (min m (3 * k)))],
       match search (resolveIndexName indexName ef)
          (setKnnK (mkFnQuery ((EmbFeat.embIdx ef).col_pfx ++ ef.name)
            embedding k filt (EmbFeat.embIdx ef).col_pfx (dkeys srcMap))
            (min m (3 * k))) with
       | .error e => .error (.vdbErr e)
       | .ok r2 => fnProcess st schema ef r2.hits⟩ := by
  simp only [find_neighbors, hef, hchk, hsrc, hr1]
  rw [if_pos ⟨hcp, hlen⟩]
  simp only [hcache, Option.getD_some]
  rw [if_pos hm]
  simp only [hcache, Option.getD_some]
  split
  · rename_i e heq
    simp [heq]
  · rename_i r2 heq
    simp [heq]

/-- A project-indexed `find_neighbors` call whose first response has a
hit count different from `k`, with no (non-zero) cached ceiling: exactly
one probe with `k = 2^31 - 1` is issued; when it fails with the
"requested k too large" reason and a non-zero maximum `m` in its payload,
`m` is cached and the search is re-issued with `min m (3 * k)`. -/
theorem find_neighbors_probe_discovery
    (search : String → EsQuery → Except VdbError SearchResponse)
    (st : ClientState) (embedding : List Int) (schema : List Feature)
    (feature : Option Feature) (indexName : Option String) (k : Nat)
    (filt : FilterOrLogic) (ef : EmbFeat)
    (srcMap : List (String × Feature)) (r1 : SearchResponse)
    (e : VdbError) (m : Nat)
    (hef : resolveEmbeddingFeature st feature = .ok ef)
    (hchk : check_filter filt ef.fg = .ok ())
    (hsrc : dget st.fg_vdb_col_fg_col_map ef.fg.id = some srcMap)
    (hr1 : search (resolveIndexName indexName ef)
      (mkFnQuery ((EmbFeat.embIdx ef).col_pfx ++ ef.name) embedding k filt
        (EmbFeat.embIdx ef).col_pfx (dkeys srcMap)) = .ok r1)
    (hcp : (EmbFeat.embIdx ef).col_pfx ≠ "")
    (hlen : r1.hits.length ≠ k)
    (hnc : (dget st.index_result_limit_k (resolveIndexName indexName ef)).getD 0 = 0)
    (hpe : search (resolveIndexName indexName ef)
      (setKnnK (mkFnQuery ((EmbFeat.embIdx ef).col_pfx ++ ef.name) embedding
        k filt (EmbFeat.embIdx ef).col_pfx (dkeys srcMap)) (2 ^ 31 - 1)) =
      .error e)
    (hre : e.reason = REQUESTED_K_TOO_LARGE)
    (hinfo : e.infoK = some m) (hm : m ≠ 0) :
    find_neighbors search st embedding schema feature indexName k filt =
      ⟨dinsert st.index_result_limit_k (resolveIndexName indexName ef) m,
       [(resolveIndexName indexName ef,
         mkFnQuery ((EmbFeat.embIdx ef).col_pfx ++ ef.name) embedding k filt
           (EmbFeat.embIdx ef).col_pfx (dkeys srcMap)),
        (resolveIndexName indexName ef,
         setKnnK (mkFnQuery ((EmbFeat.embIdx ef).col_pfx ++ ef.name) embedding
           k filt (EmbFeat.embIdx ef).col_pfx (dkeys srcMap)) (2 ^ 31 - 1)),
        (resolveIndexName indexName ef,
         setKnnK (mkFnQuery ((EmbFeat.embIdx ef).col_pfx ++ ef.name) embedding
           k filt (EmbFeat.embIdx ef).col_pfx (dkeys srcMap)) (min m (3 * k)))],
       match search (resolveIndexName indexName ef)
          (setKnnK (mkFnQuery ((EmbFeat.embIdx ef).col_pfx ++ ef.name)
            embedding k filt (EmbFeat.embIdx ef).col_pfx (dkeys srcMap))
            (min m (3 * k))) with
       | .error e2 => .error (.vdbErr e2)
       | .ok r2 => fnProcess st schema ef r2.hits⟩ := by
  simp only [find_neighbors, hef, hchk, hsrc, hr1]
  rw [if_pos ⟨hcp, hlen⟩]
  rw [hnc]
  rw [if_neg (by simp)]
  simp only [hpe]
  rw [if_pos ⟨hre, by rw [hinfo]; simpa using hm⟩]
  simp only [hinfo, Option.getD_some, dget_dinsert_self]
  split
  · rename_i e2 heq
    simp [heq]
  · rename_i r2 heq
    simp [heq]

/-- As `find_neighbors_probe_discovery`, but the probe fails in any other
way: the probe failure propagates and nothing is cached. -/
theorem find_neighbors_probe_failure
    (search : String → EsQuery → Except VdbError SearchResponse)
    (st : ClientState) (embedding : List Int) (schema : List Feature)
    (feature : Option Feature) (indexName : Option String) (k : Nat)
    (filt : FilterOrLogic) (ef : EmbFeat)
    (srcMap : List (String × Feature)) (r1 : SearchResponse) (e : VdbError)
    (hef : resolveEmbeddingFeature st feature = .ok ef)
    (hchk : check_filter filt ef.fg = .ok ())
    (hsrc : dget st.fg_vdb_col_fg_col_map ef.fg.id = some srcMap)
    (hr1 : search (resolveIndexName indexName ef)
      (mkFnQuery ((EmbFeat.embIdx ef).col_pfx ++ ef.name) embedding k filt
        (EmbFeat.embIdx ef).col_pfx (dkeys srcMap)) = .ok r1)
    (hcp : (EmbFeat.embIdx ef).col_pfx ≠ "")
    (hlen : r1.hits.length ≠ k)
    (hnc : (dget st.index_result_limit_k (resolveIndexName indexName ef)).getD 0 = 0)
    (hpe : search (resolveIndexName indexName ef)
      (setKnnK (mkFnQuery ((EmbFeat.embIdx ef).col_pfx ++ ef.name) embedding
        k filt (EmbFeat.embIdx ef).col_pfx (dkeys srcMap)) (2 ^ 31 - 1)) =
      .error e)
    (hbad : ¬(e.reason = REQUESTED_K_TOO_LARGE ∧ (e.infoK.getD 0) ≠ 0)) :
    find_neighbors search st embedding schema feature indexName k filt =
      ⟨st.index_result_limit_k,
       [(resolveIndexName indexName ef,
         mkFnQuery ((EmbFeat.embIdx ef).col_pfx ++ ef.name) embedding k filt
           (EmbFeat.embIdx ef).col_pfx (dkeys srcMap)),
        (resolveIndexName indexName ef,
         setKnnK (mkFnQuery ((EmbFeat.embIdx ef).col_pfx ++ ef.name) embedding
           k filt (EmbFeat.embIdx ef).col_pfx (dkeys srcMap)) (2 ^ 31 - 1))],
       .error (.vdbErr e)⟩ := by
  simp only [find_neighbors, hef, hchk, hsrc, hr1]
  rw [if_pos ⟨hcp, hlen⟩]
  rw [hnc]
  rw [if_neg (by simp)]
  simp only [hpe]
  rw [if_neg hbad]

/-- C2: for a `find_neighbors` call on a project index (non-empty column
prefix) whose first response's hit count differs from the requested `k`:
with no non-zero cached ceiling, exactly one probe with `k = 2^31 - 1` is
issued — if it fails with the "requested k too large" reason and a
non-zero maximum `m` in its payload, `m` is cached as the ceiling and the
search is re-issued with `k` replaced by `min m (3 * k)`, returning that
response's hits; any other probe failure propagates with nothing cached;
and with a non-zero ceiling `m` already cached for the index name the
probe is skipped and the corrected-`k` retry happens directly. -/
theorem C2_adaptive_overfetch_policy
    (search : String → EsQuery → Except VdbError SearchResponse)
    (st : ClientState) (embedding : List Int) (schema : List Feature)
    (feature : Option Feature) (indexName : Option String) (k : Nat)
    (filt : FilterOrLogic) (ef : EmbFeat)
    (srcMap : List (String × Feature)) (r1 : SearchResponse)
    (hef : resolveEmbeddingFeature st feature = .ok ef)
    (hchk : check_filter filt ef.fg = .ok ())
    (hsrc : dget st.fg_vdb_col_fg_col_map ef.fg.id = some srcMap)
    (hr1 : search (resolveIndexName indexName ef)
      (mkFnQuery ((EmbFeat.embIdx ef).col_pfx ++ ef.name) embedding k filt
        (EmbFeat.embIdx ef).col_pfx (dkeys srcMap)) = .ok r1)
    (hcp : (EmbFeat.embIdx ef).col_pfx ≠ "")
    (hlen : r1.hits.length ≠ k) :
    (∀ (e : VdbError) (m : Nat),
      (dget st.index_result_limit_k (resolveIndexName indexName ef)).getD 0 = 0 →
      search (resolveIndexName indexName ef)
        (setKnnK (mkFnQuery ((EmbFeat.embIdx ef).col_pfx ++ ef.name) embedding
          k filt (EmbFeat.embIdx ef).col_pfx (dkeys srcMap)) (2 ^ 31 - 1)) =
        .error e →
      e.reason = REQUESTED_K_TOO_LARGE → e.infoK = some m → m ≠ 0 →
      find_neighbors search st embedding schema feature indexName k filt =
        ⟨dinsert st.index_result_limit_k (resolveIndexName indexName ef) m,
         [(resolveIndexName indexName ef,
           mkFnQuery ((EmbFeat.embIdx ef).col_pfx ++ ef.name) embedding k filt
             (EmbFeat.embIdx ef).col_pfx (dkeys srcMap)),
          (resolveIndexName indexName ef,
           setKnnK (mkFnQuery ((EmbFeat.embIdx ef).col_pfx ++ ef.name)
             embedding k filt (EmbFeat.embIdx ef).col_pfx (dkeys srcMap))
             (2 ^ 31 - 1)),
          (resolveIndexName indexName ef,
           setKnnK (mkFnQuery ((EmbFeat.embIdx ef).col_pfx ++ ef.name)
             embedding k filt (EmbFeat.embIdx ef).col_pfx (dkeys srcMap))
             (min m (3 * k)))],
         match search (resolveIndexName indexName ef)
            (setKnnK (mkFnQuery ((EmbFeat.embIdx ef).col_pfx ++ ef.name)
              embedding k filt (EmbFeat.embIdx ef).col_pfx (dkeys srcMap))
              (min m (3 * k))) with
         | .error e2 => .error (.vdbErr e2)
         | .ok r2 => fnProcess st schema ef r2.hits⟩) ∧
    (∀ e : VdbError,
      (dget st.index_result_limit_k (resolveIndexName indexName ef)).getD 0 = 0 →
      search (resolveIndexName indexName ef)
        (setKnnK (mkFnQuery ((EmbFeat.embIdx ef).col_pfx ++ ef.name) embedding
          k filt (EmbFeat.embIdx ef).col_pfx (dkeys srcMap)) (2 ^ 31 - 1)) =
        .error e →
      ¬(e.reason = REQUESTED_K_TOO_LARGE ∧ (e.infoK.getD 0) ≠ 0) →
      find_neighbors search st embedding schema feature indexName k filt =
        ⟨st.index_result_limit_k,
         [(resolveIndexName indexName ef,
           mkFnQuery ((EmbFeat.embIdx ef).col_pfx ++ ef.name) embedding k filt
             (EmbFeat.embIdx ef).col_pfx (dkeys srcMap)),
          (resolveIndexName indexName ef,
           setKnnK (mkFnQuery ((EmbFeat.embIdx ef).col_pfx ++ ef.name)
             embedding k filt (EmbFeat.embIdx ef).col_pfx (dkeys srcMap))
             (2 ^ 31 - 1))],
         .error (.vdbErr e)⟩) ∧
    (∀ m : Nat,
      dget st.index_result_limit_k (resolveIndexName indexName ef) = some m →
      m ≠ 0 →
      find_neighbors search st embedding schema feature indexName k filt =
        ⟨st.index_result_limit_k,
         [(resolveIndexName indexName ef,
           mkFnQuery ((EmbFeat.embIdx ef).col_pfx ++ ef.name) embedding k filt
             (EmbFeat.embIdx ef).col_pfx (dkeys srcMap)),
          (resolveIndexName indexName ef,
           setKnnK (mkFnQuery ((EmbFeat.embIdx ef).col_pfx ++ ef.name)
             embedding k filt (EmbFeat.embIdx ef).col_pfx (dkeys srcMap))
             (min m (3 * k)))],
         match search (resolveIndexName indexName ef)
            (setKnnK (mkFnQuery ((EmbFeat.embIdx ef).col_pfx ++ ef.name)
              embedding k filt (EmbFeat.embIdx ef).col_pfx (dkeys srcMap))
              (min m (3 * k))) with
         | .error e => .error (.vdbErr e)
         | .ok r2 => fnProcess st schema ef r2.hits⟩) :=
  ⟨fun e m hnc hpe hre hinfo hm =>
    find_neighbors_probe_discovery search st embedding schema feature
      indexName k filt ef srcMap r1 e m hef hchk hsrc hr1 hcp hlen hnc hpe
      hre hinfo hm,
   fun e hnc hpe hbad =>
    find_neighbors_probe_failure search st embedding schema feature
      indexName k filt ef srcMap r1 e hef hchk hsrc hr1 hcp hlen hnc hpe hbad,
   fun m hcache hm =>
    find_neighbors_cached_retry search st embedding schema feature
      indexName k filt ef srcMap r1 m hef hchk hsrc hr1 hcp hlen hcache hm⟩

/-- The first-pass column map `init` stores for `q1`. -/
def srcMapQ1 : List (String × Feature) :=
  [("p_emb", featEmb), ("p_age", featAge), ("p_id", featId)]

theorem C2_adaptive_overfetch_policy_witness :
    (find_neighbors probeOracle stQ1 [1, 2] [] none none 10 .noneNode).cache =
      [("idx1", 50)] ∧
    (find_neighbors probeOracle stQ1 [1, 2] [] none none 10
        .noneNode).trace.map (fun p => knnKOf p.2) =
      [some 10, some 2147483647, some 30] ∧
    (find_neighbors probeOracle
        { stQ1 with index_result_limit_k := [("idx1", 50)] }
        [1, 2] [] none none 10 .noneNode).trace.map (fun p => knnKOf p.2) =
      [some 10, some 30] := by
  have hA := (C2_adaptive_overfetch_policy probeOracle stQ1 [1, 2] []
    none none 10 .noneNode ⟨"emb", fg1⟩ srcMapQ1
    ⟨[hitQ1, hitQ1, hitQ1, hitQ1]⟩ rfl rfl rfl rfl (by decide) (by decide)).1
    ⟨REQUESTED_K_TOO_LARGE, some 50⟩ 50 rfl rfl rfl rfl (by decide)
  have hC := (C2_adaptive_overfetch_policy probeOracle
    { stQ1 with index_result_limit_k := [("idx1", 50)] } [1, 2] []
    none none 10 .noneNode ⟨"emb", fg1⟩ srcMapQ1
    ⟨[hitQ1, hitQ1, hitQ1, hitQ1]⟩ rfl rfl rfl rfl (by decide) (by decide)).2.2
    50 rfl (by decide)
  refine ⟨?_, ?_, ?_⟩
  · rw [hA]; rfl
  · rw [hA]; rfl
  · rw [hC]; rfl

/-- C9: when the adaptive over-fetch re-issues the search (here from a
cached ceiling `m`), only the knn clause's `k` is replaced by
`min m (3 * k)`; the retried request's top-level `size` field keeps the
original `k`, and its `_source` projection is unchanged. -/
theorem C9_retry_keeps_top_level_size
    (search : String → EsQuery → Except VdbError SearchResponse)
    (st : ClientState) (embedding : List Int) (schema : List Feature)
    (feature : Option Feature) (indexName : Option String) (k : Nat)
    (filt : FilterOrLogic) (ef : EmbFeat)
    (srcMap : List (String × Feature)) (r1 : SearchResponse) (m : Nat)
    (hef : resolveEmbeddingFeature st feature = .ok ef)
    (hchk : check_filter filt ef.fg = .ok ())
    (hsrc : dget st.fg_vdb_col_fg_col_map ef.fg.id = some srcMap)
    (hr1 : search (resolveIndexName indexName ef)
      (mkFnQuery ((EmbFeat.embIdx ef).col_pfx ++ ef.name) embedding k filt
        (EmbFeat.embIdx ef).col_pfx (dkeys srcMap)) = .ok r1)
    (hcp : (EmbFeat.embIdx ef).col_pfx ≠ "")
    (hlen : r1.hits.length ≠ k)
    (hcache : dget st.index_result_limit_k (resolveIndexName indexName ef) =
      some m)
    (hm : m ≠ 0) :
    (find_neighbors search st embedding schema feature indexName k
        filt).trace =
      [(resolveIndexName indexName ef,
        mkFnQuery ((EmbFeat.embIdx ef).col_pfx ++ ef.name) embedding k filt
          (EmbFeat.embIdx ef).col_pfx (dkeys srcMap)),
       (resolveIndexName indexName ef,
        setKnnK (mkFnQuery ((EmbFeat.embIdx ef).col_pfx ++ ef.name) embedding
          k filt (EmbFeat.embIdx ef).col_pfx (dkeys srcMap)) (min m (3 * k)))] ∧
    (setKnnK (mkFnQuery ((EmbFeat.embIdx ef).col_pfx ++ ef.name) embedding k
        filt (EmbFeat.embIdx ef).col_pfx (dkeys srcMap)) (min m (3 * k))).size =
      some k ∧
    knnKOf (setKnnK (mkFnQuery ((EmbFeat.embIdx ef).col_pfx ++ ef.name)
        embedding k filt (EmbFeat.embIdx ef).col_pfx (dkeys srcMap))
        (min m (3 * k))) = some (min m (3 * k)) ∧
    (setKnnK (mkFnQuery ((EmbFeat.embIdx ef).col_pfx ++ ef.name) embedding k
        filt (EmbFeat.embIdx ef).col_pfx (dkeys srcMap))
        (min m (3 * k))).source =
      (mkFnQuery ((EmbFeat.embIdx ef).col_pfx ++ ef.name) embedding k filt
        (EmbFeat.embIdx ef).col_pfx (dkeys srcMap)).source := by
  have h := find_neighbors_cached_retry search st embedding schema feature
    indexName k filt ef srcMap r1 m hef hchk hsrc hr1 hcp hlen hcache hm
  exact ⟨by rw [h], rfl, rfl, rfl⟩

theorem C9_retry_keeps_top_level_size_witness :
    (find_neighbors probeOracle
        { stQ1 with index_result_limit_k := [("idx1", 50)] }
        [1, 2] [] none none 10 .noneNode).trace.map
      (fun p => (p.2.size, knnKOf p.2)) =
      [(some 10, some 10), (some 10, some 30)] := by
  have h := C9_retry_keeps_top_level_size probeOracle
    { stQ1 with index_result_limit_k := [("idx1", 50)] } [1, 2] []
    none none 10 .noneNode ⟨"emb", fg1⟩ srcMapQ1
    ⟨[hitQ1, hitQ1, hitQ1, hitQ1]⟩ 50 rfl rfl rfl rfl (by decide) (by decide)
    rfl (by decide)
  rw [h.1]; rfl

/-! ### C1: the physical-to-final column map -/

section FoldInsert

variable {β : Type} {κ : Type} {α : Type} [DecidableEq κ]
variable (kf : β → κ) (vf : β → α)

theorem foldl_dinsert_keys_nodup (l : List β) (m : List (κ × α))
    (hm : (dkeys m).Nodup) :
    (dkeys (l.foldl (fun m x => dinsert m (kf x) (vf x)) m)).Nodup := by
  induction l generalizing m with
  | nil => exact hm
  | cons x t ih =>
    simp only [List.foldl_cons]
    exact ih _ (dkeys_nodup_dinsert m (kf x) (vf x) hm)

theorem mem_dkeys_foldl_dinsert (l : List β) (m : List (κ × α)) (c : κ) :
    c ∈ dkeys (l.foldl (fun m x => dinsert m (kf x) (vf x)) m) ↔
      c ∈ dkeys m ∨ ∃ x ∈ l, c = kf x := by
  induction l generalizing m with
  | nil => simp
  | cons x t ih =>
    simp only [List.foldl_cons]
    rw [ih]
    rw [mem_dkeys_dinsert]
    constructor
    · rintro ((h1 | h2) | h3)
      · exact Or.inr ⟨x, List.mem_cons_self x t, h1⟩
      · exact Or.inl h2
      · obtain ⟨y, hy, hc⟩ := h3
        exact Or.inr ⟨y, List.mem_cons_of_mem x hy, hc⟩
    · rintro (h1 | ⟨y, hy, hc⟩)
      · exact Or.inl (Or.inr h1)
      · rcases List.mem_cons.mp hy with hy | hy
        · subst hy; exact Or.inl (Or.inl hc)
        · exact Or.inr ⟨y, hy, hc⟩

theorem dget_foldl_dinsert_stable (l : List β) (m : List (κ × α)) (key : κ)
    (w : α) (hw : dget m key = some w)
    (hcoh : ∀ x ∈ l, kf x = key → vf x = w) :
    dget (l.foldl (fun m x => dinsert m (kf x) (vf x)) m) key = some w := by
  induction l generalizing m with
  | nil => exact hw
  | cons x t ih =>
    simp only [List.foldl_cons]
    by_cases hx : kf x = key
    · refine ih _ ?_ (fun y hy => hcoh y (List.mem_cons_of_mem x hy))
      rw [← hx, dget_dinsert_self, hcoh x (List.mem_cons_self x t) hx]
    · refine ih _ ?_ (fun y hy => hcoh y (List.mem_cons_of_mem x hy))
      rw [dget_dinsert_ne m (kf x) key (vf x) (fun h => hx h.symm)]
      exact hw

theorem dget_foldl_dinsert_mem (l : List β) :
    ∀ (m : List (κ × α)) (a : β), a ∈ l →
    (∀ x ∈ l, kf x = kf a → vf x = vf a) →
    dget (l.foldl (fun m x => dinsert m (kf x) (vf x)) m) (kf a) =
      some (vf a) := by
  induction l with
  | nil => intro m a ha _; exact absurd ha (List.not_mem_nil a)
  | cons x t ih =>
    intro m a ha hcoh
    simp only [List.foldl_cons]
    by_cases hat : a ∈ t
    · exact ih _ a hat (fun y hy => hcoh y (List.mem_cons_of_mem x hy))
    · have hax : x = a := by
        rcases List.mem_cons.mp ha with h | h
        · exact h.symm
        · exact absurd h hat
      subst hax
      refine dget_foldl_dinsert_stable kf vf t _ (kf x) (vf x)
        (dget_dinsert_self m (kf x) (vf x)) ?_
      intro y hy hk
      exact hcoh y (List.mem_cons_of_mem x hy) hk

end FoldInsert

/-- The first mapping pass never touches the physical-to-final map. -/
theorem initLoop1_td_unchanged (qs : List SubQuery) (st st1 : ClientState)
    (h : initLoop1 qs st = .ok st1) :
    st1.fg_vdb_col_td_col_map = st.fg_vdb_col_td_col_map := by
  induction qs generalizing st with
  | nil =>
    simp only [initLoop1] at h
    injection h with h
    rw [← h]
  | cons q t ih =>
    cases hem : q.left_feature_group.embedding_index with
    | none =>
      simp only [initLoop1, hem] at h
      exact ih st h
    | some ei =>
      cases hmk : mkFgColMaps q ei with
      | error e =>
        simp only [initLoop1, hem, hmk] at h
        exact Except.noConfusion h
      | ok maps =>
        simp only [initLoop1, hem, hmk] at h
        rw [ih _ h]

/-- Entries of the physical-to-final map survive the rest of a
successful third `init` loop. -/
theorem initLoop2_td_preserved (l : List (SubQuery × Option String))
    (i0 : Nat) (st st2 : ClientState) (h : initLoop2 i0 l st = .ok st2)
    (x : Nat) (v : List (String × String))
    (hx : dget st.fg_vdb_col_td_col_map x = some v) :
    dget st2.fg_vdb_col_td_col_map x = some v := by
  induction l generalizing i0 st with
  | nil =>
    simp only [initLoop2] at h
    injection h with h
    rw [← h]
    exact hx
  | cons hd tl ih =>
    obtain ⟨qh, ph⟩ := hd
    cases hem : qh.left_feature_group.embedding_index with
    | none =>
      simp only [initLoop2, hem] at h
      exact ih (i0 + 1) st h hx
    | some ei =>
      simp only [initLoop2, hem] at h
      by_cases hg :
          (dget st.fg_vdb_col_td_col_map qh.left_feature_group.id).isSome
      · rw [if_pos hg] at h; exact absurd h (by simp)
      · rw [if_neg hg] at h
        refine ih (i0 + 1) _ h ?_
        have hne : x ≠ qh.left_feature_group.id := by
          intro hxx
          subst hxx
          rw [hx] at hg
          exact hg (by simp)
        simpa [dget_dinsert_ne _ _ _ _ hne] using hx

/-- A successful third `init` loop stores, for each embedding-bearing
entry, exactly the map built by `mkVdbTdMap` from its feature group,
embedding index and effective join prefix. -/
theorem initLoop2_td_entry (l : List (SubQuery × Option String))
    (i0 : Nat) (st st2 : ClientState) (h : initLoop2 i0 l st = .ok st2)
    (qq : SubQuery) (jp : Option String) (hmem : (qq, jp) ∈ l)
    (ei : EmbeddingIndex)
    (hei : qq.left_feature_group.embedding_index = some ei) :
    dget st2.fg_vdb_col_td_col_map qq.left_feature_group.id =
      some (mkVdbTdMap qq.left_feature_group ei (jp.getD "")) := by
  induction l generalizing i0 st with
  | nil => exact absurd hmem (List.not_mem_nil _)
  | cons hd tl ih =>
    obtain ⟨qh, ph⟩ := hd
    rcases List.mem_cons.mp hmem with hh | ht
    · injection hh with hq hp
      subst hq; subst hp
      simp only [initLoop2, hei] at h
      by_cases hg :
          (dget st.fg_vdb_col_td_col_map qq.left_feature_group.id).isSome
      · rw [if_pos hg] at h; exact absurd h (by simp)
      · rw [if_neg hg] at h
        exact initLoop2_td_preserved tl (i0 + 1) _ st2 h _ _
          (dget_dinsert_self _ _ _)
    · cases hem : qh.left_feature_group.embedding_index with
      | none =>
        simp only [initLoop2, hem] at h
        exact ih (i0 + 1) st h ht
      | some eh =>
        simp only [initLoop2, hem] at h
        by_cases hg :
            (dget st.fg_vdb_col_td_col_map qh.left_feature_group.id).isSome
        · rw [if_pos hg] at h; exact absurd h (by simp)
        · rw [if_neg hg] at h
          exact ih (i0 + 1) _ h ht

/-- C1: for each embedding-bearing feature group of the query (primary or
joined), the physical-to-final map stored under its id is exactly
`mkVdbTdMap`: its keys are, with no duplicates and no omissions, the
embedding-index-prefixed feature columns together with the prefixed
primary-key columns (present even when a key column was not selected as
a feature, since the map ranges over all group features), and each
physical column is mapped to the join-alias-prefixed final name (the
synthetic join of index 0 carrying the empty alias). -/
theorem C1_physical_to_final_map (q : Query) (sks : Option (List ServingKey))
    (st : ClientState) (h0 : init q sks = .ok st)
    (i : Nat) (qq : SubQuery) (jp : Option String)
    (hi : q.fgJoins.get? i = some (qq, jp))
    (ei : EmbeddingIndex)
    (hei : qq.left_feature_group.embedding_index = some ei)
    (hpk : ∀ pk ∈ qq.left_feature_group.primary_key,
      ∃ f ∈ qq.left_feature_group.features, f.name = pk) :
    dget st.fg_vdb_col_td_col_map qq.left_feature_group.id =
      some (mkVdbTdMap qq.left_feature_group ei (jp.getD "")) ∧
    (dkeys (mkVdbTdMap qq.left_feature_group ei (jp.getD ""))).Nodup ∧
    (∀ c, c ∈ dkeys (mkVdbTdMap qq.left_feature_group ei (jp.getD "")) ↔
      ((∃ f ∈ qq.left_feature_group.features, c = ei.col_pfx ++ f.name) ∨
       (∃ pk ∈ qq.left_feature_group.primary_key, c = ei.col_pfx ++ pk))) ∧
    (∀ f ∈ qq.left_feature_group.features,
      dget (mkVdbTdMap qq.left_feature_group ei (jp.getD ""))
          (ei.col_pfx ++ f.name) = some (jp.getD "" ++ f.name)) := by
  simp only [init] at h0
  cases hL1 : initLoop1 q.subqueries
      { embedding_features := buildEmbeddingFeatures q,
        serving_keys := sks } with
  | error e =>
    rw [hL1] at h0
    exact absurd (Except.noConfusion h0 : False) not_false
  | ok st1 =>
    rw [hL1] at h0
    have h0' : initLoop2 0 q.fgJoins st1 = .ok st := h0
    have htd1 : st1.fg_vdb_col_td_col_map = [] :=
      initLoop1_td_unchanged q.subqueries _ st1 hL1
    have hmem : (qq, jp) ∈ q.fgJoins := List.get?_mem hi
    have hmain := initLoop2_td_entry q.fgJoins 0 st1 st h0' qq jp hmem ei hei
    refine ⟨hmain, ?_, ?_, ?_⟩
    · exact foldl_dinsert_keys_nodup _ _ _ [] (by simp [dkeys])
    · intro c
      unfold mkVdbTdMap
      rw [mem_dkeys_foldl_dinsert]
      simp only [dkeys, List.map_nil, List.not_mem_nil, false_or]
      constructor
      · rintro ⟨f, hf, hc⟩
        exact Or.inl ⟨f, hf, hc⟩
      · rintro (⟨f, hf, hc⟩ | ⟨pk, hpkmem, hc⟩)
        · exact ⟨f, hf, hc⟩
        · obtain ⟨f, hf, hname⟩ := hpk pk hpkmem
          exact ⟨f, hf, by rw [hc, hname]⟩
    · intro f hf
      unfold mkVdbTdMap
      refine dget_foldl_dinsert_mem _ _ _ [] f hf ?_
      intro x hx hk
      have : x.name = f.name := string_append_left_cancel hk
      rw [this]

theorem C1_physical_to_final_map_witness :
    dget stQJoin.fg_vdb_col_td_col_map 2 =
      some (mkVdbTdMap fg2 ⟨"idx2", "e_", ["emb2"]⟩ "r_") ∧
    mkVdbTdMap fg2 ⟨"idx2", "e_", ["emb2"]⟩ "r_" =
      [("e_id2", "r_id2"), ("e_emb2", "r_emb2")] ∧
    dget (mkVdbTdMap fg2 ⟨"idx2", "e_", ["emb2"]⟩ "r_") "e_id2" =
      some "r_id2" := by
  have h := C1_physical_to_final_map qJoin none stQJoin rfl 1
    ⟨fg2, [featEmb2]⟩ (some "r_") rfl ⟨"idx2", "e_", ["emb2"]⟩ rfl
    (by decide)
  exact ⟨h.1, by rfl, h.2.2.2 featId2 (by decide)⟩

/-! ### C4: duplicate embedding join -/

theorem dget_none_of_dinsert_none {κ α : Type} [DecidableEq κ]
    (m : List (κ × α)) (k x : κ) (v : α)
    (h : dget (dinsert m k v) x = none) : dget m x = none := by
  by_cases hx : x = k
  · subst hx
    rw [dget_dinsert_self] at h
    exact absurd h (by simp)
  · rwa [dget_dinsert_ne m k x v hx] at h

/-- Along a successful run of the third `init` loop, every
embedding-bearing entry's feature-group id was absent from the
physical-to-final map at loop entry. -/
theorem initLoop2_ok_td_none (l : List (SubQuery × Option String)) (i0 : Nat)
    (st st2 : ClientState) (h : initLoop2 i0 l st = .ok st2) :
    ∀ qp ∈ l, qp.1.left_feature_group.embedding_index.isSome →
      dget st.fg_vdb_col_td_col_map qp.1.left_feature_group.id = none := by
  induction l generalizing i0 st with
  | nil => intro qp hqp; exact absurd hqp (List.not_mem_nil qp)
  | cons hd tl ih =>
    obtain ⟨qh, ph⟩ := hd
    intro qp hqp hemb
    cases hem : qh.left_feature_group.embedding_index with
    | none =>
      simp only [initLoop2, hem] at h
      rcases List.mem_cons.mp hqp with hqp | hqp
      · subst hqp; rw [hem] at hemb; exact absurd hemb (by simp)
      · exact ih (i0 + 1) st h qp hqp hemb
    | some ei =>
      simp only [initLoop2, hem] at h
      by_cases hg :
          (dget st.fg_vdb_col_td_col_map qh.left_feature_group.id).isSome
      · rw [if_pos hg] at h; exact absurd h (by simp)
      · rw [if_neg hg] at h
        rcases List.mem_cons.mp hqp with hqp | hqp
        · subst hqp
          simpa using hg
        · have := ih (i0 + 1) _ h qp hqp hemb
          exact dget_none_of_dinsert_none _ _ _ _ this

/-- A successful run of the third `init` loop implies no two
embedding-bearing entries share a feature-group id. -/
theorem initLoop2_ok_distinct_ids (l : List (SubQuery × Option String))
    (i0 : Nat) (st st2 : ClientState) (h : initLoop2 i0 l st = .ok st2)
    (a b : Nat) (hab : a < b) (qa qb : SubQuery) (pa pb : Option String)
    (ha : l.get? a = some (qa, pa)) (hb : l.get? b = some (qb, pb))
    (hea : qa.left_feature_group.embedding_index.isSome)
    (heb : qb.left_feature_group.embedding_index.isSome) :
    qa.left_feature_group.id ≠ qb.left_feature_group.id := by
  induction l generalizing i0 st a b with
  | nil => exact absurd ha (by simp)
  | cons hd tl ih =>
    obtain ⟨qh, ph⟩ := hd
    cases a with
    | zero =>
      simp only [List.get?] at ha
      injection ha with ha
      have hqa : qh = qa := congrArg Prod.fst ha
      subst hqa
      cases b with
      | zero => omega
      | succ b' =>
        simp only [List.get?] at hb
        cases hem : qh.left_feature_group.embedding_index with
        | none => rw [hem] at hea; exact absurd hea (by simp)
        | some ei =>
          simp only [initLoop2, hem] at h
          by_cases hg :
              (dget st.fg_vdb_col_td_col_map qh.left_feature_group.id).isSome
          · rw [if_pos hg] at h; exact absurd h (by simp)
          · rw [if_neg hg] at h
            have hmem : (qb, pb) ∈ tl := List.get?_mem hb
            have hnone := initLoop2_ok_td_none tl (i0 + 1) _ st2 h (qb, pb) hmem heb
            intro hid
            rw [← hid, dget_dinsert_self] at hnone
            exact absurd hnone (by simp)
    | succ a' =>
      cases b with
      | zero => omega
      | succ b' =>
        simp only [List.get?] at ha hb
        cases hem : qh.left_feature_group.embedding_index with
        | none =>
          simp only [initLoop2, hem] at h
          exact ih (i0 + 1) st h a' b' (by omega) ha hb
        | some ei =>
          simp only [initLoop2, hem] at h
          by_cases hg :
              (dget st.fg_vdb_col_td_col_map qh.left_feature_group.id).isSome
          · rw [if_pos hg] at h; exact absurd h (by simp)
          · rw [if_neg hg] at h
            exact ih (i0 + 1) _ h a' b' (by omega) ha hb

/-- The third `init` loop either succeeds or raises exactly the duplicate
join error. -/
theorem initLoop2_ok_or_dup (l : List (SubQuery × Option String)) (i0 : Nat)
    (st : ClientState) :
    (∃ st2, initLoop2 i0 l st = .ok st2) ∨
    initLoop2 i0 l st =
      .error (.fsErr "Do not support join of same fg multiple times.") := by
  induction l generalizing i0 st with
  | nil => exact Or.inl ⟨st, rfl⟩
  | cons hd tl ih =>
    obtain ⟨qh, ph⟩ := hd
    cases hem : qh.left_feature_group.embedding_index with
    | none => simpa only [initLoop2, hem] using ih (i0 + 1) st
    | some ei =>
      by_cases hg :
          (dget st.fg_vdb_col_td_col_map qh.left_feature_group.id).isSome
      · right; simp only [initLoop2, hem, if_pos hg]
      · simpa only [initLoop2, hem, if_neg hg] using ih (i0 + 1) _

/-- C4 counterexample: for the query joining `fg1` twice, construction
does raise the duplicate-join `FeatureStoreException`, but NOT before any
namespace map is built — the first mapping pass has already fully built
the physical-to-local column map (for feature group id 1) when the second
pass raises. -/
theorem C4_maps_built_before_dup_error_counterexample :
    init qDup none =
      .error (.fsErr "Do not support join of same fg multiple times.") ∧
    (match initLoop1 qDup.subqueries
        { embedding_features := buildEmbeddingFeatures qDup,
          serving_keys := none } with
     | .ok st1 => dkeys st1.fg_vdb_col_fg_col_map
     | .error _ => []) = [1] :=
  ⟨rfl, rfl⟩

/-- C4 amended: constructing the client for a query whose join list holds
the same embedding-bearing feature group at two join indexes raises the
duplicate-join `FeatureStoreException` (given the first mapping pass
succeeds); the failure happens in the second pass, after the
local/physical column maps of the first pass are built. -/
theorem C4_duplicate_embedding_join_rejected (q : Query)
    (sks : Option (List ServingKey)) (st1 : ClientState)
    (h1 : initLoop1 q.subqueries
      { embedding_features := buildEmbeddingFeatures q,
        serving_keys := sks } = .ok st1)
    (i j : Nat) (qi qj : SubQuery) (pi pj : Option String)
    (hij : i < j)
    (hi : q.fgJoins.get? i = some (qi, pi))
    (hj : q.fgJoins.get? j = some (qj, pj))
    (hei : qi.left_feature_group.embedding_index.isSome)
    (hej : qj.left_feature_group.embedding_index.isSome)
    (hid : qi.left_feature_group.id = qj.left_feature_group.id) :
    init q sks =
      .error (.fsErr "Do not support join of same fg multiple times.") := by
  have hinit : init q sks = initLoop2 0 q.fgJoins st1 := by
    simp only [init]
    rw [h1]
    rfl
  rw [hinit]
  rcases initLoop2_ok_or_dup q.fgJoins 0 st1 with ⟨st2, hok⟩ | herr
  · exact absurd hid
      (initLoop2_ok_distinct_ids q.fgJoins 0 st1 st2 hok i j hij qi qj pi pj
        hi hj hei hej)
  · exact herr

theorem C4_duplicate_embedding_join_rejected_witness :
    init qDup none =
      .error (.fsErr "Do not support join of same fg multiple times.") :=
  C4_duplicate_embedding_join_rejected qDup none
    ((initLoop1 qDup.subqueries
      { embedding_features := buildEmbeddingFeatures qDup,
        serving_keys := none }).toOption.getD {})
    rfl 0 1 ⟨fg1, [featEmb]⟩ ⟨fg1, [featAge]⟩ (some "") (some "r_")
    (by omega) rfl rfl rfl rfl rfl

/-! ### C3: filter-tree compilation -/

/-- C3 counterexample: a `SINGLE` composite whose two children are the
same comparison leaf compiles its (non-empty) left child WITHOUT the
column prefix, while the leaf alone compiles WITH it — the physical
column naming is not applied the same way regardless of which child is
taken. -/
theorem C3_single_drops_col_pfx_counterexample :
    get_query_filter
        (.logic .SINGLE
          (.filt ⟨⟨"country", "string", false, 1⟩, .EQ, "US"⟩)
          (.filt ⟨⟨"country", "string", false, 1⟩, .EQ, "US"⟩))
        (some "p_") =
      [.term "country" "US"] ∧
    get_query_filter (.filt ⟨⟨"country", "string", false, 1⟩, .EQ, "US"⟩)
        (some "p_") =
      [.term "p_country" "US"] :=
  ⟨rfl, rfl⟩

/-- C3 amended: a comparison leaf compiles to the native clause of the
fixed table (EQ term-equality, NE negated term, IN set-membership, LK
wildcard-contains, GT/GE/LT/LE range with the matching operator) on the
physical column name (namespace prefix + leaf feature name); a `SINGLE`
composite compiles to its left child's compilation WITHOUT any column
prefix when that is non-empty, and otherwise to its right child's
compilation with the prefix applied. -/
theorem C3_filter_compilation_amended (leaf : SFilter) (cp : Option String)
    (l r : FilterOrLogic) :
    get_query_filter (.filt leaf) cp =
      [match leaf.condition with
       | .EQ => .term (physName cp leaf.feature.name) leaf.value
       | .NE => .boolMustNot [.term (physName cp leaf.feature.name) leaf.value]
       | .IN => .termsIn (physName cp leaf.feature.name) leaf.value
       | .LK => .wildcard (physName cp leaf.feature.name) ("*" ++ leaf.value ++ "*")
       | .GT => .range (physName cp leaf.feature.name) "gt" leaf.value
       | .GE => .range (physName cp leaf.feature.name) "gte" leaf.value
       | .LT => .range (physName cp leaf.feature.name) "lt" leaf.value
       | .LE => .range (physName cp leaf.feature.name) "lte" leaf.value] ∧
    get_query_filter (.logic .SINGLE l r) cp =
      (if (get_query_filter l none).isEmpty then get_query_filter r cp
       else get_query_filter l none) := by
  constructor
  · cases hc : leaf.condition <;>
      (cases cp with
       | none => simp [get_query_filter, convert_filter, filter_map, hc, physName]
       | some p =>
         by_cases hp : p = "" <;>
           simp [get_query_filter, convert_filter, filter_map, hc, physName, hp])
  · rfl

/-! ### C6: schema type coercion of renamed rows -/

/-- C6: per schema feature, a truthy date-typed raw value (epoch
milliseconds) is coerced to the calendar date of `ms // 1000`; a
timestamp-typed value the same way retaining time of day; a binary-typed
value, or a complex-typed value that is not an embedding feature, is
base64-decoded to raw bytes; a null raw value passes through untouched;
scalar values and embedding-feature values pass through unchanged. -/
theorem C6_schema_type_coercion (embKeys : List Feature)
    (row : List (String × RawValue)) (f : Feature) :
    (strToLower f.ftype = "date" → ∀ v : Int, pyGet row f.name = .int v → v ≠ 0 →
      convertFeature embKeys row f = some (dinsert row f.name (msToDate v))) ∧
    (strToLower f.ftype = "timestamp" → ∀ v : Int, pyGet row f.name = .int v → v ≠ 0 →
      convertFeature embKeys row f = some (dinsert row f.name (msToTimestamp v))) ∧
    ((strToLower f.ftype = "binary" ∨ (f.is_complex = true ∧ f ∉ embKeys)) →
      strToLower f.ftype ≠ "date" → strToLower f.ftype ≠ "timestamp" →
      ∀ s : String, pyGet row f.name = .str s → s ≠ "" →
      convertFeature embKeys row f =
        (b64decode s).map (fun bs => dinsert row f.name (.bytes bs))) ∧
    (pyGet row f.name = .null → convertFeature embKeys row f = some row) ∧
    (strToLower f.ftype ≠ "date" → strToLower f.ftype ≠ "timestamp" →
      strToLower f.ftype ≠ "binary" → f.is_complex = false →
      convertFeature embKeys row f = some row) ∧
    (f ∈ embKeys → strToLower f.ftype ≠ "date" → strToLower f.ftype ≠ "timestamp" →
      strToLower f.ftype ≠ "binary" →
      convertFeature embKeys row f = some row) := by
  refine ⟨?_, ?_, ?_, ?_, ?_, ?_⟩
  · intro hd v hget hv
    simp [convertFeature, hget, hd, isFalsy, hv]
  · intro ht v hget hv
    have hd : strToLower f.ftype ≠ "date" := by rw [ht]; decide
    simp [convertFeature, hget, ht, hd, isFalsy, hv]
  · intro hbc hd ht s hget hs
    simp [convertFeature, hget, hd, ht, hbc, isFalsy, hs]
  · intro hget
    simp [convertFeature, hget, isFalsy]
  · intro hd ht hb hcx
    by_cases hf : isFalsy (pyGet row f.name) = true
    · simp [convertFeature, hf]
    · simp [convertFeature, hf, hd, ht, hb, hcx]
  · intro hmem hd ht hb
    by_cases hf : isFalsy (pyGet row f.name) = true
    · simp [convertFeature, hf]
    · simp [convertFeature, hf, hd, ht, hb, hmem]

theorem C6_schema_type_coercion_witness :
    convertFeature [] [("d", RawValue.int 1700000000000)] ⟨"d", "date", false, 1⟩ =
      some [("d", RawValue.date 2023 11 14)] ∧
    convertFeature [] [("b", RawValue.str "AQID")] ⟨"b", "binary", false, 1⟩ =
      some [("b", RawValue.bytes [1, 2, 3])] ∧
    convertFeature [] [("x", RawValue.null)] ⟨"x", "date", false, 1⟩ =
      some [("x", RawValue.null)] ∧
    convertFeature [⟨"e", "array<double>", true, 1⟩]
        [("e", RawValue.arr [1, 2])] ⟨"e", "array<double>", true, 1⟩ =
      some [("e", RawValue.arr [1, 2])] := by
  refine ⟨?_, ?_, ?_, ?_⟩
  · exact ((C6_schema_type_coercion [] [("d", RawValue.int 1700000000000)]
      ⟨"d", "date", false, 1⟩).1 (by decide) 1700000000000 rfl (by decide)).trans (by rfl)
  · exact ((C6_schema_type_coercion [] [("b", RawValue.str "AQID")]
      ⟨"b", "binary", false, 1⟩).2.2.1 (Or.inl (by decide)) (by decide) (by decide)
      "AQID" rfl (by decide)).trans (by rfl)
  · exact ((C6_schema_type_coercion [] [("x", RawValue.null)]
      ⟨"x", "date", false, 1⟩).2.2.2.1 rfl).trans (by rfl)
  · exact ((C6_schema_type_coercion [⟨"e", "array<double>", true, 1⟩]
      [("e", RawValue.arr [1, 2])] ⟨"e", "array<double>", true, 1⟩).2.2.2.2.2
      (by decide) (by decide) (by decide) (by decide)).trans (by rfl)

/-! ### C10: falsy fallback and break in `filter_entry_by_join_index` -/

theorem filterEntryLoop_break (entry : List (String × RawValue))
    (pre : List ServingKey) (sk : ServingKey) (post : List ServingKey)
    (acc : List (String × RawValue))
    (hpre : ∀ s ∈ pre, resolveServingKey entry s ≠ RawValue.null)
    (hsk : resolveServingKey entry sk = RawValue.null) :
    filterEntryLoop entry (pre ++ sk :: post) acc =
      (false, (filterEntryLoop entry (pre ++ [sk]) acc).2) := by
  induction pre generalizing acc with
  | nil =>
    simp [filterEntryLoop, hsk]
  | cons s t ih =>
    have hs := hpre s (List.mem_cons_self s t)
    simp only [List.cons_append, filterEntryLoop, hs, if_neg, if_false]
    exact ih _ (fun x hx => hpre x (List.mem_cons_of_mem s hx))

/-- C10: in `filter_entry_by_join_index`, a falsy entry value under the
required serving key name falls back (Python `or`) to the lookup under
the raw feature name; and when a serving key of the join index resolves
to `None`, resolution stops there: the call returns `complete = False`
with the mapping built from the keys up to and including the failing one,
omitting every serving key after it. -/
theorem C10_falsy_fallback_and_break (st : ClientState)
    (entry : List (String × RawValue)) (ji : Nat)
    (pre : List ServingKey) (sk : ServingKey) (post : List ServingKey)
    (hget : dget (serving_key_by_serving_index st).1 ji = some (pre ++ sk :: post))
    (hpre : ∀ s ∈ pre, resolveServingKey entry s ≠ RawValue.null)
    (hsk : resolveServingKey entry sk = RawValue.null) :
    (∀ (e : List (String × RawValue)) (s : ServingKey),
      isFalsy (pyGet e s.required_serving_key) = true →
      resolveServingKey e s = pyGet e s.feature_name) ∧
    filter_entry_by_join_index st entry ji =
      some ((false, (filterEntryLoop entry (pre ++ [sk]) []).2),
        (serving_key_by_serving_index st).2) := by
  constructor
  · intro e s hf
    unfold resolveServingKey pyOr
    simp [hf]
  · unfold filter_entry_by_join_index
    simp only [hget]
    rw [filterEntryLoop_break entry pre sk post [] hpre hsk]

theorem C10_falsy_fallback_and_break_witness :
    filter_entry_by_join_index
        { serving_keys := some [⟨"user_id", "uid", 0⟩, ⟨"item_id", "iid", 0⟩,
            ⟨"zz", "zf", 0⟩] }
        [("user_id", RawValue.str "u1")] 0 =
      some ((false, [("uid", RawValue.str "u1"), ("iid", RawValue.null)]),
        (serving_key_by_serving_index
          { serving_keys := some [⟨"user_id", "uid", 0⟩, ⟨"item_id", "iid", 0⟩,
              ⟨"zz", "zf", 0⟩] }).2) ∧
    resolveServingKey [("item_id", RawValue.int 0), ("iid", RawValue.int 7)]
        ⟨"item_id", "iid", 0⟩ = RawValue.int 7 := by
  have h := C10_falsy_fallback_and_break
    { serving_keys := some [⟨"user_id", "uid", 0⟩, ⟨"item_id", "iid", 0⟩,
        ⟨"zz", "zf", 0⟩] }
    [("user_id", RawValue.str "u1")] 0
    [⟨"user_id", "uid", 0⟩] ⟨"item_id", "iid", 0⟩ [⟨"zz", "zf", 0⟩]
    (by decide) (by decide) (by decide)
  refine ⟨h.2.trans (by rfl), ?_⟩
  exact (h.1 [("item_id", RawValue.int 0), ("iid", RawValue.int 7)]
    ⟨"item_id", "iid", 0⟩ (by decide)).trans (by decide)

theorem C8_falsy_values_pass_through_witness :
    convertFeature [] [("d", RawValue.int 0)] ⟨"d", "date", false, 1⟩ =
      some [("d", RawValue.int 0)] ∧
    convertFeature [] [("t", RawValue.int 0)] ⟨"t", "timestamp", false, 1⟩ =
      some [("t", RawValue.int 0)] ∧
    convertFeature [] [("b", RawValue.str "")] ⟨"b", "binary", false, 1⟩ =
      some [("b", RawValue.str "")] :=
  ⟨C8_falsy_values_pass_through [] [("d", RawValue.int 0)] ⟨"d", "date", false, 1⟩ (by decide),
   C8_falsy_values_pass_through [] [("t", RawValue.int 0)] ⟨"t", "timestamp", false, 1⟩ (by decide),
   C8_falsy_values_pass_through [] [("b", RawValue.str "")] ⟨"b", "binary", false, 1⟩ (by decide)⟩

end Hsfs
